import Mathlib

/-!
Verification development for the Axiom game-development pipeline.

The Python sources are shallowly embedded: pure string manipulation is
translated to functions on `List Char` (Lean `String` wraps `List Char`,
so conversions are by `String.data` / `String.mk`), stateful methods on
the `TaskState` dataclass become functions `TaskState → ... → TaskState`,
and environmental effects (timestamps from `datetime.now()`, the Ollama
inference service, the RAG store, the execution sandbox, interactive
`input()` calls) are passed in as explicit parameters, since the Python
code only ever observes their results as plain values.

Python `int` counters and indices that the repository only ever assigns
nonnegative values (`current_subtask_index`, `rag_searches`,
`total_executions`, `successful_executions`) are embedded as `Nat`.
Python floats produced by true division in `progress_percentage` are
idealized as rationals (`ℚ`).
-/

namespace Axiom

/-! ## Python string primitives

Helpers mirroring the Python `str` operations used by the sources.
Characters matched by Python's `str.strip()` / regex `\s` are modelled by
the six ASCII whitespace characters (non-ASCII Unicode whitespace is not
modelled). -/

/-- The six ASCII characters Python treats as whitespace: space, tab,
newline, carriage return, form feed, vertical tab. -/
def isPySpace (c : Char) : Bool :=
  c = ' ' || c = '\t' || c = '\n' || c = '\r' || c = '\x0c' || c = '\x0b'

/-- Python `str.strip()`: drop whitespace from both ends. -/
def pyStrip (s : List Char) : List Char :=
  ((s.dropWhile isPySpace).reverse.dropWhile isPySpace).reverse

/-- Python `sub in s` substring test. -/
def containsSub : (s sub : List Char) → Bool
  | [], sub => sub.isEmpty
  | s@(_ :: rest), sub => sub.isPrefixOf s || containsSub rest sub

/-- Python `s.startswith(pre)`. -/
def startsWith (s pre : List Char) : Bool :=
  pre.isPrefixOf s

/-- Auxiliary for `s.split('\n')`: returns the first line and the list of
remaining lines. -/
def splitNlAux : List Char → List Char × List (List Char)
  | [] => ([], [])
  | c :: rest =>
    let r := splitNlAux rest
    if c = '\n' then ([], r.1 :: r.2) else (c :: r.1, r.2)

/-- Python `s.split('\n')`. Always returns at least one (possibly empty)
line; `"".split('\n') == [""]`. -/
def splitNl (s : List Char) : List (List Char) :=
  (splitNlAux s).1 :: (splitNlAux s).2

/-- Python `'\n'.join(lines)`. -/
def joinNl : List (List Char) → List Char
  | [] => []
  | [l] => l
  | l :: l' :: ls => l ++ '\n' :: joinNl (l' :: ls)

/-- Python `'0' <= c <= '9'` / regex `\d` on ASCII. -/
def isPyDigit (c : Char) : Bool :=
  '0' ≤ c && c ≤ '9'

/-- Python `str.lower()` on the character ranges the sources compare
against: ASCII letters and the basic Cyrillic block (`А`–`Я`, `Ё`). -/
def pyToLower (c : Char) : Char :=
  if 'A' ≤ c && c ≤ 'Z' then Char.ofNat (c.toNat + 32)
  else if 'А' ≤ c && c ≤ 'Я' then Char.ofNat (c.toNat + 32)
  else if c = 'Ё' then 'ё'
  else c

/-- Python `s.lower()`. -/
def pyLower (s : List Char) : List Char :=
  s.map pyToLower

/-- Python `s.split(sep)` for a non-empty separator: split on every
non-overlapping occurrence, left to right. (Python raises `ValueError`
on an empty separator; the sources never pass one, and the `sep = []`
guard here is only to make the recursion total.) -/
def pySplit (sep : List Char) (s : List Char) : List (List Char) :=
  if sep.isEmpty then [s]
  else
    match s with
    | [] => [[]]
    | c :: rest =>
      if sep.isPrefixOf (c :: rest) then
        [] :: pySplit sep (rest.drop (sep.length - 1))
      else
        match pySplit sep rest with
        | [] => [[c]]
        | l :: ls => (c :: l) :: ls
termination_by s.length
decreasing_by
  · simp only [List.length_cons, List.length_drop]; omega
  · simp only [List.length_cons]; omega

/-- Python `'\n'.join(lines)` on `String` values. -/
def joinLinesStr (ls : List String) : String :=
  ⟨joinNl (ls.map String.data)⟩

/-! ## state_manager.py — data model

Embedding of the `TaskStatus` / `ValidationStatus` enums and the
`CodeChunk`, `ErrorInfo` and `TaskState` dataclasses. -/

/-- `class TaskStatus(Enum)` from state_manager.py. -/
inductive TaskStatus where
  | pending | planning | coding | testing | fixing | completed | failed
  deriving DecidableEq, Repr

/-- The string `.value` of each `TaskStatus` member. -/
def TaskStatus.value : TaskStatus → String
  | .pending => "pending"
  | .planning => "planning"
  | .coding => "coding"
  | .testing => "testing"
  | .fixing => "fixing"
  | .completed => "completed"
  | .failed => "failed"

/-- `TaskStatus(v)`: look a member up by its string value; `none` models
the `ValueError` Python raises for a non-member. -/
def TaskStatus.ofValue (v : String) : Option TaskStatus :=
  if v = "pending" then some .pending
  else if v = "planning" then some .planning
  else if v = "coding" then some .coding
  else if v = "testing" then some .testing
  else if v = "fixing" then some .fixing
  else if v = "completed" then some .completed
  else if v = "failed" then some .failed
  else none

/-- `class ValidationStatus(Enum)` from state_manager.py. -/
inductive ValidationStatus where
  | not_started | vpending | passed | vfailed
  deriving DecidableEq, Repr

/-- The string `.value` of each `ValidationStatus` member. -/
def ValidationStatus.value : ValidationStatus → String
  | .not_started => "not_started"
  | .vpending => "pending"
  | .passed => "passed"
  | .vfailed => "failed"

/-- `ValidationStatus(v)`: look a member up by its string value. -/
def ValidationStatus.ofValue (v : String) : Option ValidationStatus :=
  if v = "not_started" then some .not_started
  else if v = "pending" then some .vpending
  else if v = "passed" then some .passed
  else if v = "failed" then some .vfailed
  else none

/-- `@dataclass CodeChunk` from state_manager.py. -/
structure CodeChunk where
  subtask : String
  code : String
  timestamp : String
  model_used : String
  rag_context : Option (List String) := none
  errors : List String := []
  deriving DecidableEq, Repr

/-- `@dataclass ErrorInfo` from state_manager.py. -/
structure ErrorInfo where
  type : String
  description : String
  code_context : String
  timestamp : String
  user_feedback : Option String := none
  suggested_fix : Option String := none
  deriving DecidableEq, Repr

/-- One entry of `TaskState.code_history`. The field is typed
`List[Dict[str, Any]]` in Python, but every writer in the repository
(`add_code_chunk`) appends exactly this five-string-key record. -/
structure HistoryEntry where
  timestamp : String
  subtask : String
  previous_code : String
  new_code : String
  model_used : String
  deriving DecidableEq, Repr

/-- One entry of `TaskState.user_feedback_history`; every writer
(`add_user_feedback`) appends exactly this three-string-key record. -/
structure FeedbackEntry where
  timestamp : String
  question : String
  answer : String
  deriving DecidableEq, Repr

/-- JSON-representable Python values, used for the `metadata` dict
(`Dict[str, Any]`) and for the persisted task record. -/
inductive PyVal where
  | vStr : String → PyVal
  | vInt : Int → PyVal
  | vNone : PyVal
  | vList : List PyVal → PyVal
  | vDict : List (String × PyVal) → PyVal

/-- `@dataclass TaskState` from state_manager.py. The `generated_code`
dataclass field is shadowed by a property whose getter and setter both
alias `current_code`, so it carries no state of its own and is not a
field here. -/
structure TaskState where
  task_id : String
  original_task : String
  created_at : String
  updated_at : String
  task_status : TaskStatus := .pending
  validation_status : ValidationStatus := .not_started
  subtasks : List String := []
  current_subtask_index : Nat := 0
  current_subtask : Option String := none
  metadata : List (String × PyVal) := []
  code_chunks : List CodeChunk := []
  current_code : String := ""
  code_history : List HistoryEntry := []
  errors_detected : List ErrorInfo := []
  user_feedback_history : List FeedbackEntry := []
  models_used : List String := []
  rag_searches : Nat := 0
  total_executions : Nat := 0
  successful_executions : Nat := 0

/-- The `generated_code` property: its getter returns `current_code`. -/
def TaskState.generated_code (st : TaskState) : String :=
  st.current_code

/-- `TaskState.progress_percentage`: `0.0` when there are no subtasks,
else `(current_subtask_index / len(subtasks)) * 100` (Python true
division, idealized over ℚ). -/
def TaskState.progress_percentage (st : TaskState) : ℚ :=
  if st.subtasks = [] then 0
  else ((st.current_subtask_index : ℚ) / (st.subtasks.length : ℚ)) * 100

/-- `TaskState.add_code_chunk(subtask, new_full_code, model_used)`; the
`datetime.now().isoformat()` timestamp is the explicit `now` argument. -/
def TaskState.add_code_chunk (st : TaskState) (subtask new_full_code model_used now : String) :
    TaskState :=
  { st with
    code_history := st.code_history ++
      [{ timestamp := now, subtask := subtask, previous_code := st.current_code,
         new_code := new_full_code, model_used := model_used }],
    current_code := new_full_code,
    updated_at := now }

/-- `TaskState.add_error(error_type, description, code_context, user_feedback)`. -/
def TaskState.add_error (st : TaskState)
    (error_type description code_context : String)
    (user_feedback : Option String) (now : String) : TaskState :=
  { st with
    errors_detected := st.errors_detected ++
      [{ type := error_type, description := description, code_context := code_context,
         timestamp := now, user_feedback := user_feedback }],
    updated_at := now }

/-- `TaskState.move_to_next_subtask()`. When not on the last subtask the
index advances, `current_subtask` is re-derived and the status becomes
CODING; otherwise the status becomes TESTING and `current_subtask` is
cleared. -/
def TaskState.move_to_next_subtask (st : TaskState) : TaskState :=
  if h : st.current_subtask_index < st.subtasks.length - 1 then
    { st with
      current_subtask_index := st.current_subtask_index + 1,
      current_subtask := some (st.subtasks.get
        ⟨st.current_subtask_index + 1, by omega⟩),
      task_status := .coding }
  else
    { st with task_status := .testing, current_subtask := none }

/-! ## The code-history chaining invariant (spec §8 / claim C1)

"`code_history[i].new_code == code_history[i+1].previous_code` and
`current_code == code_history[-1].new_code` (or `current_code == ""`
when history is empty)". Adjacent chaining is `List.Chain'`. -/

/-- The chaining invariant on a code history and the current code. -/
def chained (h : List HistoryEntry) (cur : String) : Prop :=
  List.Chain' (fun a b => a.new_code = b.previous_code) h ∧
  cur = (h.getLast?.elim "" HistoryEntry.new_code)

/-- A `Decidable` instance for the adjacency chain that evaluates by
structural recursion (the library instance does not kernel-reduce). -/
def decChainNewPrev :
    (l : List HistoryEntry) →
      Decidable (List.Chain' (fun a b => a.new_code = b.previous_code) l)
  | [] => isTrue List.chain'_nil
  | [_] => isTrue (List.chain'_singleton _)
  | _ :: b :: t =>
    have : Decidable (List.Chain' (fun a b => a.new_code = b.previous_code) (b :: t)) :=
      decChainNewPrev (b :: t)
    decidable_of_iff (_ ∧ List.Chain' (fun a b => a.new_code = b.previous_code) (b :: t))
      List.chain'_cons.symm

instance (h : List HistoryEntry) (cur : String) : Decidable (chained h cur) :=
  have : Decidable (List.Chain' (fun a b => a.new_code = b.previous_code) h) :=
    decChainNewPrev h
  inferInstanceAs (Decidable (_ ∧ cur = _))

/-! ## agent.py — sprite injection and the final validation step -/

/-- Python `d[k] = v` on an insertion-ordered dict modelled as an
association list: an existing key keeps its position, a new key is
appended. -/
def pySetItem {A : Type} : List (String × A) → String → A → List (String × A)
  | [], k, v => [(k, v)]
  | (k0, v0) :: rest, k, v =>
    if k0 = k then (k, v) :: rest else (k0, v0) :: pySetItem rest k v

/-- Python `d.get(k)` / `d[k]` lookup on an association list. -/
def dictGet {A : Type} : List (String × A) → String → Option A
  | [], _ => none
  | (k0, v0) :: rest, k => if k0 = k then some v0 else dictGet rest k

/-- One generated sprite as consumed by `GameDevAgent._add_sprites_to_game`
(the fields of the visualizer's image dict that the agent reads). -/
structure Sprite where
  type : String
  description : String
  path : String
  filename : String

/-- The sprite dict as stored into `metadata["generated_sprites"]`. -/
def Sprite.toVal (s : Sprite) : PyVal :=
  .vDict [("type", .vStr s.type), ("description", .vStr s.description),
          ("path", .vStr s.path), ("filename", .vStr s.filename)]

/-- `sprite['path'].replace('\\', '/')`. -/
def replaceBackslash (s : String) : String :=
  ⟨s.data.map (fun c => if c = '\\' then '/' else c)⟩

/-- `GameDevAgent._create_sprite_loading_code(sprites)`: the generated
loader block, one header line plus six lines per sprite, joined by
newlines. -/
def create_sprite_loading_code (sprites : List Sprite) : String :=
  let code_lines :=
    ["\n# ===== АВТОМАТИЧЕСКИ СГЕНЕРИРОВАННЫЕ СПРАЙТЫ =====\n"] ++
    (sprites.map (fun sprite =>
      let var_name := sprite.type ++ "_sprite"
      let path := replaceBackslash sprite.path
      ["try:",
       "    " ++ var_name ++ " = pygame.image.load(\x27" ++ path ++ "\x27).convert_alpha()",
       "    print(f\x27Загружен спрайт: " ++ sprite.description.take 20 ++ "...\x27)",
       "except Exception as e:",
       "    print(f\x27Ошибка загрузки спрайта " ++ sprite.filename ++ ": \x7be\x7d\x27)",
       "    " ++ var_name ++ " = None  # Fallback\n"])).flatten
  joinLinesStr code_lines

/-- The loop in `GameDevAgent._inject_sprite_code`: insert `sprite_code`
right after the first line containing `pygame.display.set_mode`, if any. -/
def insertAfterSetMode (sprite_code : String) : List String → Option (List String)
  | [] => none
  | l :: ls =>
    if containsSub l.data "pygame.display.set_mode".data then
      some (l :: sprite_code :: ls)
    else (insertAfterSetMode sprite_code ls).map (l :: ·)

/-- `GameDevAgent._inject_sprite_code(game_code, sprite_code)`: after the
first `set_mode` line; else before the `__main__` guard (note the Python
`split` keeps only the first two parts there); else appended. -/
def inject_sprite_code (game_code sprite_code : String) : String :=
  let lines := (splitNl game_code.data).map (fun l => (⟨l⟩ : String))
  match insertAfterSetMode sprite_code lines with
  | some lines2 => joinLinesStr lines2
  | none =>
    if containsSub game_code.data "if __name__ == \"__main__\":".data then
      let parts := pySplit "if __name__ == \"__main__\":".data game_code.data
      (⟨parts.headD []⟩ : String) ++ sprite_code ++ "\n\nif __name__ == \"__main__\":" ++
        (⟨(parts.get? 1).getD []⟩ : String)
    else game_code ++ "\n\n" ++ sprite_code

/-- `GameDevAgent._add_sprites_to_game(sprites)`: stores the sprite dicts
under `metadata["generated_sprites"]` and overwrites `current_code` with
the injected version. Note that it does **not** append to `code_history`.
(The `hasattr` guard is vacuous: `metadata` is always a field.) -/
def add_sprites_to_game (st : TaskState) (sprites : List Sprite) : TaskState :=
  if sprites.isEmpty then st
  else
    { st with
      metadata := pySetItem st.metadata "generated_sprites" (.vList (sprites.map Sprite.toVal)),
      current_code := inject_sprite_code st.current_code (create_sprite_loading_code sprites) }

/-- The final-validation section of `GameDevAgent.develop_game`
(agent.py lines 543-563): set status TESTING; when the accumulated code
is non-empty, run the Validator on it (its `execution_success` is the
`execution_success` parameter here) and mark COMPLETED/PASSED on success
or validation FAILED on failure; when the code is empty, mark the task
FAILED. -/
def develop_game_final (st : TaskState) (execution_success : Bool) : TaskState :=
  let st1 := { st with task_status := TaskStatus.testing }
  if st1.current_code ≠ "" then
    if execution_success then
      { st1 with validation_status := .passed, task_status := .completed }
    else
      { st1 with validation_status := .vfailed }
  else
    { st1 with task_status := .failed }

/-! ## modules/fixer.py — FixerDetector -/

/-- The encoding declaration `# -*- coding: utf-8 -*-`. -/
def encodingDecl : List Char := "# -*- coding: utf-8 -*-".data

/-- The characters `_sanitize_code` keeps unchanged:
`32 <= ord(char) <= 126 or char in '\n\t\r'`. -/
def allowedChar (c : Char) : Bool :=
  (32 ≤ c.toNat && c.toNat ≤ 126) || c = '\n' || c = '\t' || c = '\r'

/-- Step 2 of `_sanitize_code`: replace every disallowed character by a
space. -/
def replaceDisallowed (s : List Char) : List Char :=
  s.map (fun c => if allowedChar c then c else ' ')

/-- Step 3 of `_sanitize_code`: keep the first line containing the
encoding declaration, drop every later one; `added` is the
`encoding_added` flag. -/
def dedupDecl : List (List Char) → Bool → List (List Char)
  | [], _ => []
  | l :: ls, added =>
    if containsSub l encodingDecl then
      if added then dedupDecl ls true else l :: dedupDecl ls true
    else l :: dedupDecl ls added

/-- The pop-and-reinsert loop in step 4 of `_sanitize_code`: remove the
first line containing the encoding declaration and return it with the
remaining lines. -/
def popFirstDecl : List (List Char) → Option (List Char × List (List Char))
  | [] => none
  | l :: ls =>
    if containsSub l encodingDecl then some (l, ls)
    else (popFirstDecl ls).map (fun p => (p.1, l :: p.2))

/-- Step 4 of `_sanitize_code`: if a declaration line exists but the
first line is not one, move the first declaration line to the front. -/
def reorderDecl (ls : List (List Char)) (added : Bool) : List (List Char) :=
  if added && !containsSub (ls.headD []) encodingDecl then
    match popFirstDecl ls with
    | some p => p.1 :: p.2
    | none => ls
  else ls

/-- `FixerDetector._sanitize_code(code)`: empty input is returned as is
(`if not code`); otherwise prepend the encoding declaration unless the
code already starts with it, blank disallowed characters, deduplicate
declaration lines and move the declaration line to the front. -/
def sanitize_code (code : List Char) : List Char :=
  if code = [] then []
  else
    let code1 := if startsWith code encodingDecl then code
                 else encodingDecl ++ '\n' :: code
    let code2 := replaceDisallowed code1
    let lines := splitNl code2
    let added := lines.any (fun l => containsSub l encodingDecl)
    let cleaned := dedupDecl lines false
    joinNl (reorderDecl cleaned added)

/-- One issue record `{type, description, severity}` produced by the
Fixer's analyses; runtime issues additionally carry a `rag_context`. -/
structure Issue where
  type : String
  description : String
  severity : String
  rag_context : Option String := none
  deriving DecidableEq, Repr

/-- `FixerDetector._static_analysis(code)`: the fixed six-point text
checklist. -/
def static_analysis (code : List Char) : List Issue :=
  (if !startsWith code encodingDecl then
    [{ type := "encoding_error", description := "Missing encoding declaration",
       severity := "critical" }] else []) ++
  (if !containsSub code "import pygame".data then
    [{ type := "missing_import", description := "Missing pygame import",
       severity := "critical" }] else []) ++
  (if !containsSub code "pygame.init()".data then
    [{ type := "missing_init", description := "Missing pygame.init()",
       severity := "critical" }] else []) ++
  (if !containsSub code "while".data || !containsSub code "pygame.event.get()".data then
    [{ type := "missing_game_loop", description := "No main game loop found",
       severity := "high" }] else []) ++
  (if !containsSub code "pygame.display.flip()".data &&
      !containsSub code "pygame.display.update()".data then
    [{ type := "missing_display_update", description := "No screen update found",
       severity := "high" }] else []) ++
  (if code.any (fun c => c.toNat > 127) then
    [{ type := "non_ascii_chars", description := "Code contains non-ASCII characters",
       severity := "critical" }] else [])

/-- The observable outcome of `_execute_code_safe` for a run that reached
the subprocess: exit code, stdout and stderr as captured. -/
structure ExecResult where
  success : Bool
  return_code : Int
  stdout : String
  stderr : String
  output : String
  deriving DecidableEq, Repr

/-- The result record `_execute_code_safe` builds from a finished
subprocess: `success` iff the exit code is zero, `output` is stderr when
non-empty else stdout. -/
def execResultOf (return_code : Int) (stdout stderr : String) : ExecResult :=
  { success := return_code = 0, return_code := return_code,
    stdout := stdout, stderr := stderr,
    output := if stderr ≠ "" then stderr else stdout }

/-- `FixerDetector._analyze_runtime_error`: keyword classification of the
captured output. `ragCtx ty` stands for the text
`_extract_rag_context(similar_errors, ty)` attaches for issue type `ty`
(it depends only on the RAG store, which is environmental). -/
def analyze_runtime_error (output : List Char) (ragCtx : String → String) : List Issue :=
  (if containsSub output "Non-UTF-8 code".data || containsSub output "encoding declared".data then
    [{ type := "encoding_error", description := "Encoding problem (file not UTF-8)",
       severity := "critical", rag_context := some (ragCtx "encoding_error") }] else []) ++
  (if containsSub output "ImportError".data then
    [{ type := "import_error", description := "Module import error",
       severity := "critical", rag_context := some (ragCtx "import_error") }] else []) ++
  (if containsSub output "NameError".data then
    [{ type := "name_error", description := "Undefined variable or function",
       severity := "high", rag_context := some (ragCtx "name_error") }] else []) ++
  (if containsSub output "SyntaxError".data || containsSub output "IndentationError".data then
    [{ type := "syntax_error", description := "Syntax or indentation error",
       severity := "critical", rag_context := some (ragCtx "syntax_error") }] else []) ++
  (if containsSub output "AttributeError".data then
    [{ type := "attribute_error", description := "Object attribute error",
       severity := "high", rag_context := some (ragCtx "attribute_error") }] else []) ++
  (if pyStrip output = [] || containsSub output "ТАЙМАУТ".data ||
      containsSub output "Timeout".data then
    [{ type := "black_screen_or_timeout", description := "Black screen or infinite loop",
       severity := "high", rag_context := some (ragCtx "black_screen") }] else [])

/-- The result record of `FixerDetector.analyze_code`. -/
structure AnalysisResult where
  code : String
  original_code : String
  execution_success : Bool
  errors_detected : List Issue
  user_feedback : Option String
  fixed_code : String
  fix_applied : Bool
  deriving DecidableEq, Repr

/-- `FixerDetector.analyze_code(code, task_description)`. The sandbox
outcome `exec`, the RAG grounding `ragCtx`, the operator's disposition
`feedback` (what `_get_user_feedback` returns) and the repaired text
`fixResult` (what `_generate_fix` returns) are environmental inputs.
Static issues are collected first; runtime issues are appended only when
execution failed; the disposition/repair steps run only when an issue
was detected or execution failed, and touch only `user_feedback`,
`fixed_code` and `fix_applied`. -/
def analyze_code (code : List Char) (exec : ExecResult) (ragCtx : String → String)
    (feedback : String) (fixResult : List Char) : AnalysisResult :=
  let static := static_analysis code
  let errors := static ++
    (if exec.success then [] else analyze_runtime_error exec.output.data ragCtx)
  let needsFix := !errors.isEmpty || !exec.success
  { code := ⟨code⟩, original_code := ⟨code⟩,
    execution_success := exec.success,
    errors_detected := errors,
    user_feedback := if needsFix then some feedback else none,
    fixed_code := if needsFix && feedback ≠ "skip" then ⟨fixResult⟩ else ⟨code⟩,
    fix_applied := needsFix && feedback ≠ "skip" && fixResult ≠ code }

/-! ## modules/planner.py — TaskPlanner

The RAG searches in `decompose_task` only feed the prompt sent to the
inference service, so they do not appear in the embedded output; the
inference call's outcome (an exception, or the response text) is the
explicit `outcome` parameter. -/

/-- Regex `^\d+[\.\)]\s*(.+)$` applied by `re.match` to a stripped line:
one or more digits, a dot or closing parenthesis, then at least one
further character; the captured group is returned stripped. -/
def matchNumberedDot (line : List Char) : Option (List Char) :=
  let ds := line.takeWhile isPyDigit
  if ds.isEmpty then none
  else
    match line.drop ds.length with
    | [] => none
    | c :: rest =>
      if (c = '.' || c = ')') && !rest.isEmpty then some (pyStrip rest) else none

/-- Regex `^[\-\*•]\s*(.+)$`: a bullet character then at least one
further character; the captured group is returned stripped. -/
def matchBullet (line : List Char) : Option (List Char) :=
  match line with
  | [] => none
  | c :: rest =>
    if (c = '-' || c = '*' || c = '•') && !rest.isEmpty then some (pyStrip rest) else none

/-- Regex `^\d+\s+(.+)$`: digits, at least one whitespace character, and
at least one further character position for the capture (so at least two
characters after the digits); the captured group is returned stripped. -/
def matchNumberedSpace (line : List Char) : Option (List Char) :=
  let ds := line.takeWhile isPyDigit
  if ds.isEmpty then none
  else
    let after := line.drop ds.length
    if !(after.takeWhile isPySpace).isEmpty && 2 ≤ after.length then
      some (pyStrip after)
    else none

/-- `TaskPlanner._parse_subtasks(response)`: strip the response, walk its
lines, skip lines shorter than 10 characters, try the three patterns in
order, filter out captures of length ≤ 15, markdown fences and lines
mentioning "пример", and keep at most 7 results. -/
def parse_subtasks (response : List Char) : List (List Char) :=
  let lines := splitNl (pyStrip response)
  let step := fun (acc : List (List Char)) (rawLine : List Char) =>
    let line := pyStrip rawLine
    if line.length < 10 then acc
    else
      match matchNumberedDot line <|> matchBullet line <|> matchNumberedSpace line with
      | none => acc
      | some subtask =>
        if 15 < subtask.length && !startsWith subtask "```".data &&
           !containsSub (pyLower subtask) "пример".data
        then acc ++ [subtask] else acc
  (lines.foldl step []).take 7

/-- `TaskPlanner._get_fallback_subtasks(task_description)`: a fixed
six-entry plan, specialized for the snake / platformer archetypes. -/
def fallback_subtasks (task_description : List Char) : List (List Char) :=
  if containsSub (pyLower task_description) "змейк".data then
    (["Инициализация PyGame и игрового поля",
      "Создание класса Змейки с движением",
      "Генерация еды на поле",
      "Реализация управления стрелками",
      "Обработка столкновений и роста змейки",
      "Отображение счета и игры"] : List String).map String.data
  else if containsSub (pyLower task_description) "платформер".data then
    (["Создание окна и фона",
      "Реализация игрока с физикой и гравитацией",
      "Создание платформ и препятствий",
      "Реализация управления и прыжка",
      "Обнаружение столкновений с платформами",
      "Добавление врагов или собираемых предметов"] : List String).map String.data
  else
    (["Инициализация PyGame и создание игрового окна",
      "Создание основного игрового объекта",
      "Реализация управления объектом",
      "Добавление игровой логики и механик",
      "Настройка отображения и интерфейса",
      "Тестирование и отладка"] : List String).map String.data

/-- `TaskPlanner.decompose_task(task_description)`: parse the inference
response into subtasks, substituting the fallback plan when the call
raised (`except Exception`) or the parse produced nothing. -/
def decompose_task (task_description : List Char)
    (outcome : Except String (List Char)) : List (List Char) :=
  match outcome with
  | .error _ => fallback_subtasks task_description
  | .ok response =>
    let subtasks := parse_subtasks response
    if subtasks.isEmpty then fallback_subtasks task_description else subtasks

/-! ## modules/coder.py — CodeConstructor

As with the planner, the RAG lookups only shape the prompt; the
inference outcome is the explicit parameter. -/

/-- The fallback f-string `CodeConstructor.generate` returns when the
inference call raises, with the modification text and the truncated
exception text interpolated (whitespace reproduced exactly, including
the stray indentation of the original literal). -/
def coder_fallback (modification err : List Char) : List Char :=
  "# Автоматически сгенерированный код для: ".data ++ modification ++
  "\n        Ошибка при обращении к модели: ".data ++ err ++
  ("\n        import pygame\n\n        def main():\n        pygame.init()\n" ++
   "        screen = pygame.display.set_mode((800, 600))\n" ++
   "        clock = pygame.time.Clock()\n        running = True\n\n" ++
   "        while running:\n            for event in pygame.event.get():\n" ++
   "                if event.type == pygame.QUIT:\n                    running = False\n" ++
   "            \n            screen.fill((0, 0, 0))\n            pygame.display.flip()\n" ++
   "            clock.tick(60)\n\n        pygame.quit()\n" ++
   "        if name == \"main\":\n        main()").data

/-- The preamble-line filter in `CodeConstructor.generate`: drop lines
whose stripped form starts with one of four lead-in phrases. -/
def isPreambleLine (line : List Char) : Bool :=
  let stripped := pyStrip line
  startsWith stripped "Вот ".data || startsWith stripped "Изменённый ".data ||
  startsWith stripped "Here ".data || startsWith stripped "Modified ".data

/-- `CodeConstructor.generate(current_code, modification, ...)`: on an
inference exception return the fallback skeleton with `str(e)[:100]`;
otherwise strip the response, extract the contents of a markdown code
fence if one is present, drop preamble lines and strip the result.
(`current_code` and `modification` only shape the prompt on the success
path; `_validate_code` is invoked only for logging.) -/
def generate (current_code modification : List Char)
    (outcome : Except (List Char) (List Char)) : List Char :=
  match outcome with
  | .error e => coder_fallback modification (e.take 100)
  | .ok response =>
    let gc := pyStrip response
    let gc :=
      if containsSub gc "```python".data then
        pyStrip (((pySplit "```".data
          (((pySplit "```python".data gc).get? 1).getD []))).headD [])
      else if containsSub gc "```".data then
        pyStrip (((pySplit "```".data
          (((pySplit "```".data gc).get? 1).getD []))).headD [])
      else gc
    let code_lines := (splitNl gc).filter (fun line => !isPreambleLine line)
    pyStrip (joinNl code_lines)

/-! ## state_manager.py — persistence

`to_dict` spreads `asdict(self)` and overrides the enum and nested-list
entries, so the record's keys are exactly the dataclass fields in
declaration order. `from_dict` restores the enums (raising `KeyError` on
a missing key and `ValueError` on a non-member value — both caught by
`load_state`) and the nested dataclass lists, then calls the constructor
(raising `TypeError`, which `load_state` does *not* catch, on a missing
required field or an unexpected key). The dataclass constructor performs
no runtime type check; a record whose values have the wrong shapes would
build a state outside this embedding's state space, and such shapes are
classified as `typeError` here. -/

/-- The Python exception classes distinguished by `load_state`. -/
inductive PyErr where
  | keyError | valueError | typeError
  deriving DecidableEq, Repr

/-- `asdict` serialization of an `Optional[str]`. -/
def optStrVal : Option String → PyVal
  | none => .vNone
  | some s => .vStr s

/-- `asdict` serialization of an `Optional[List[str]]`. -/
def optStrListVal : Option (List String) → PyVal
  | none => .vNone
  | some l => .vList (l.map .vStr)

/-- `asdict(chunk)` for a `CodeChunk`. -/
def CodeChunk.toRaw (c : CodeChunk) : PyVal :=
  .vDict [("subtask", .vStr c.subtask), ("code", .vStr c.code),
          ("timestamp", .vStr c.timestamp), ("model_used", .vStr c.model_used),
          ("rag_context", optStrListVal c.rag_context),
          ("errors", .vList (c.errors.map .vStr))]

/-- `asdict(error)` for an `ErrorInfo`. -/
def ErrorInfo.toRaw (e : ErrorInfo) : PyVal :=
  .vDict [("type", .vStr e.type), ("description", .vStr e.description),
          ("code_context", .vStr e.code_context), ("timestamp", .vStr e.timestamp),
          ("user_feedback", optStrVal e.user_feedback),
          ("suggested_fix", optStrVal e.suggested_fix)]

/-- A `code_history` entry as it appears in the persisted record (the
raw dict `add_code_chunk` appended). -/
def HistoryEntry.toRaw (h : HistoryEntry) : PyVal :=
  .vDict [("timestamp", .vStr h.timestamp), ("subtask", .vStr h.subtask),
          ("previous_code", .vStr h.previous_code), ("new_code", .vStr h.new_code),
          ("model_used", .vStr h.model_used)]

/-- A `user_feedback_history` entry as persisted. -/
def FeedbackEntry.toRaw (f : FeedbackEntry) : PyVal :=
  .vDict [("timestamp", .vStr f.timestamp), ("question", .vStr f.question),
          ("answer", .vStr f.answer)]

/-- `TaskState.to_dict()`: `asdict(self)` (keys in field declaration
order; the `generated_code` property reads back `current_code`) with the
enum values and the nested dataclass lists overridden in place. -/
def TaskState.to_dict (st : TaskState) : List (String × PyVal) :=
  [("task_id", .vStr st.task_id), ("original_task", .vStr st.original_task),
   ("created_at", .vStr st.created_at), ("updated_at", .vStr st.updated_at),
   ("task_status", .vStr st.task_status.value),
   ("validation_status", .vStr st.validation_status.value),
   ("subtasks", .vList (st.subtasks.map .vStr)),
   ("current_subtask_index", .vInt st.current_subtask_index),
   ("current_subtask", optStrVal st.current_subtask),
   ("metadata", .vDict st.metadata),
   ("code_chunks", .vList (st.code_chunks.map CodeChunk.toRaw)),
   ("generated_code", .vStr st.current_code),
   ("current_code", .vStr st.current_code),
   ("code_history", .vList (st.code_history.map HistoryEntry.toRaw)),
   ("errors_detected", .vList (st.errors_detected.map ErrorInfo.toRaw)),
   ("user_feedback_history", .vList (st.user_feedback_history.map FeedbackEntry.toRaw)),
   ("models_used", .vList (st.models_used.map .vStr)),
   ("rag_searches", .vInt st.rag_searches),
   ("total_executions", .vInt st.total_executions),
   ("successful_executions", .vInt st.successful_executions)]

/-- The dataclass field names of `TaskState` in declaration order
(`generated_code` is a field shadowed by the property). -/
def taskStateFields : List String :=
  ["task_id", "original_task", "created_at", "updated_at", "task_status",
   "validation_status", "subtasks", "current_subtask_index", "current_subtask",
   "metadata", "code_chunks", "generated_code", "current_code", "code_history",
   "errors_detected", "user_feedback_history", "models_used", "rag_searches",
   "total_executions", "successful_executions"]

/-- Expect a string value. -/
def parsePyStr : PyVal → Except PyErr String
  | .vStr s => .ok s
  | _ => .error .typeError

/-- Expect a nonnegative integer (the repository only ever stores
nonnegative values in these fields; a negative value would build a state
outside the modeled space). -/
def parsePyNat : PyVal → Except PyErr Nat
  | .vInt n => if 0 ≤ n then .ok n.toNat else .error .typeError
  | _ => .error .typeError

/-- Expect `null` or a string. -/
def parsePyOptStr : PyVal → Except PyErr (Option String)
  | .vNone => .ok none
  | .vStr s => .ok (some s)
  | _ => .error .typeError

/-- Expect a list of strings. -/
def parsePyStrList : PyVal → Except PyErr (List String)
  | .vList l => l.mapM parsePyStr
  | _ => .error .typeError

/-- Expect `null` or a list of strings. -/
def parsePyOptStrList : PyVal → Except PyErr (Option (List String))
  | .vNone => .ok none
  | .vList l => (l.mapM parsePyStr).map some
  | _ => .error .typeError

/-- Expect a dict (the untouched `metadata` pass-through). -/
def parsePyDict : PyVal → Except PyErr (List (String × PyVal))
  | .vDict d => .ok d
  | _ => .error .typeError

/-- `CodeChunk(**chunk)`: `TypeError` on a missing required key or an
unexpected keyword, defaults for `rag_context` and `errors`. -/
def parseCodeChunk : PyVal → Except PyErr CodeChunk
  | .vDict d =>
    if !(d.map Prod.fst).all (fun k =>
        (["subtask", "code", "timestamp", "model_used", "rag_context", "errors"]).contains k)
    then .error .typeError
    else
      match dictGet d "subtask", dictGet d "code",
            dictGet d "timestamp", dictGet d "model_used" with
      | some sv, some cv, some tv, some mv => do
        let subtask ← parsePyStr sv
        let code ← parsePyStr cv
        let timestamp ← parsePyStr tv
        let model_used ← parsePyStr mv
        let rag_context ← parsePyOptStrList ((dictGet d "rag_context").getD .vNone)
        let errors ← parsePyStrList ((dictGet d "errors").getD (.vList []))
        .ok { subtask, code, timestamp, model_used, rag_context, errors }
      | _, _, _, _ => .error .typeError
  | _ => .error .typeError

/-- `ErrorInfo(**error)`. -/
def parseErrorInfo : PyVal → Except PyErr ErrorInfo
  | .vDict d =>
    if !(d.map Prod.fst).all (fun k =>
        (["type", "description", "code_context", "timestamp",
          "user_feedback", "suggested_fix"]).contains k)
    then .error .typeError
    else
      match dictGet d "type", dictGet d "description",
            dictGet d "code_context", dictGet d "timestamp" with
      | some tv, some dv, some cv, some tsv => do
        let type ← parsePyStr tv
        let description ← parsePyStr dv
        let code_context ← parsePyStr cv
        let timestamp ← parsePyStr tsv
        let user_feedback ← parsePyOptStr ((dictGet d "user_feedback").getD .vNone)
        let suggested_fix ← parsePyOptStr ((dictGet d "suggested_fix").getD .vNone)
        .ok { type, description, code_context, timestamp, user_feedback, suggested_fix }
      | _, _, _, _ => .error .typeError
  | _ => .error .typeError

/-- A persisted `code_history` entry. Python passes these through
untouched; only the five-string-key shape `add_code_chunk` writes is in
the modeled state space. -/
def parseHistoryEntry : PyVal → Except PyErr HistoryEntry
  | .vDict d =>
    match dictGet d "timestamp", dictGet d "subtask", dictGet d "previous_code",
          dictGet d "new_code", dictGet d "model_used" with
    | some tv, some sv, some pv, some nv, some mv => do
      let timestamp ← parsePyStr tv
      let subtask ← parsePyStr sv
      let previous_code ← parsePyStr pv
      let new_code ← parsePyStr nv
      let model_used ← parsePyStr mv
      if d.length = 5 then .ok { timestamp, subtask, previous_code, new_code, model_used }
      else .error .typeError
    | _, _, _, _, _ => .error .typeError
  | _ => .error .typeError

/-- A persisted `user_feedback_history` entry (shape written by
`add_user_feedback`). -/
def parseFeedbackEntry : PyVal → Except PyErr FeedbackEntry
  | .vDict d =>
    match dictGet d "timestamp", dictGet d "question", dictGet d "answer" with
    | some tv, some qv, some av => do
      let timestamp ← parsePyStr tv
      let question ← parsePyStr qv
      let answer ← parsePyStr av
      if d.length = 3 then .ok { timestamp, question, answer }
      else .error .typeError
    | _, _, _ => .error .typeError
  | _ => .error .typeError

/-- `TaskStatus(value)` on a raw value: `ValueError` unless the value is
one of the member strings. -/
def parseTaskStatus : PyVal → Except PyErr TaskStatus
  | .vStr s =>
    match TaskStatus.ofValue s with
    | some t => .ok t
    | none => .error .valueError
  | _ => .error .valueError

/-- `ValidationStatus(value)` on a raw value. -/
def parseValidationStatus : PyVal → Except PyErr ValidationStatus
  | .vStr s =>
    match ValidationStatus.ofValue s with
    | some t => .ok t
    | none => .error .valueError
  | _ => .error .valueError

/-- `TaskState.from_dict(data)`: restore the enums (`KeyError` /
`ValueError`), restore the nested lists, then `cls(**data)` (`TypeError`
on an unexpected key or a missing required field; absent defaulted
fields take their defaults). The `generated_code` entry is accepted but
its value is ignored: the property setter's write to `current_code` is
overwritten by the later `current_code` field assignment. -/
def TaskState.from_dict (data : List (String × PyVal)) : Except PyErr TaskState := do
  let tsv ← match dictGet data "task_status" with
    | some v => Except.ok v
    | none => Except.error PyErr.keyError
  let task_status ← parseTaskStatus tsv
  let vsv ← match dictGet data "validation_status" with
    | some v => Except.ok v
    | none => Except.error PyErr.keyError
  let validation_status ← parseValidationStatus vsv
  let code_chunks ← match (dictGet data "code_chunks").getD (.vList []) with
    | .vList l => l.mapM parseCodeChunk
    | _ => Except.error PyErr.typeError
  let errors_detected ← match (dictGet data "errors_detected").getD (.vList []) with
    | .vList l => l.mapM parseErrorInfo
    | _ => Except.error PyErr.typeError
  if !(data.map Prod.fst).all (fun k => taskStateFields.contains k) then
    Except.error PyErr.typeError
  else
    match dictGet data "task_id", dictGet data "original_task",
          dictGet data "created_at", dictGet data "updated_at" with
    | some idv, some otv, some cav, some uav => do
      let task_id ← parsePyStr idv
      let original_task ← parsePyStr otv
      let created_at ← parsePyStr cav
      let updated_at ← parsePyStr uav
      let subtasks ← parsePyStrList ((dictGet data "subtasks").getD (.vList []))
      let current_subtask_index ← parsePyNat
        ((dictGet data "current_subtask_index").getD (.vInt 0))
      let current_subtask ← parsePyOptStr ((dictGet data "current_subtask").getD .vNone)
      let metadata ← parsePyDict ((dictGet data "metadata").getD (.vDict []))
      let current_code ← parsePyStr ((dictGet data "current_code").getD (.vStr ""))
      let code_history ← match (dictGet data "code_history").getD (.vList []) with
        | .vList l => l.mapM parseHistoryEntry
        | _ => Except.error PyErr.typeError
      let user_feedback_history ←
        match (dictGet data "user_feedback_history").getD (.vList []) with
        | .vList l => l.mapM parseFeedbackEntry
        | _ => Except.error PyErr.typeError
      let models_used ← parsePyStrList ((dictGet data "models_used").getD (.vList []))
      let rag_searches ← parsePyNat ((dictGet data "rag_searches").getD (.vInt 0))
      let total_executions ← parsePyNat ((dictGet data "total_executions").getD (.vInt 0))
      let successful_executions ← parsePyNat
        ((dictGet data "successful_executions").getD (.vInt 0))
      Except.ok { task_id, original_task, created_at, updated_at, task_status,
                  validation_status, subtasks, current_subtask_index, current_subtask,
                  metadata, code_chunks, current_code, code_history, errors_detected,
                  user_feedback_history, models_used, rag_searches, total_executions,
                  successful_executions }
    | _, _, _, _ => Except.error PyErr.typeError

/-- One task's file in the state directory: either text that is not
valid JSON (`json.load` raises `JSONDecodeError`), or the parsed JSON
object. JSON serialization of the `PyVal` fragment written by
`save_state` is lossless UTF-8 text, so the file is modelled as the
parsed object itself. (A JSON file whose top level is not an object is
not modelled.) -/
abbrev StoredFile := Except Unit (List (String × PyVal))

/-- The state directory: one entry per `task_id`. -/
abbrev StateStore := List (String × StoredFile)

/-- `StateManager.save_state(state)`: write `state.to_dict()` to the
file named by `state.task_id`. -/
def save_state (store : StateStore) (st : TaskState) : StateStore :=
  pySetItem store st.task_id (.ok st.to_dict)

/-- `StateManager.load_state(task_id)`: `None` when the file is absent;
`json.JSONDecodeError`, `KeyError` and `ValueError` from parsing are
caught and yield `None`; any other exception (notably the `TypeError`
the dataclass constructor raises) propagates to the caller. -/
def load_state (store : StateStore) (task_id : String) : Except PyErr (Option TaskState) :=
  match dictGet store task_id with
  | none => .ok none
  | some (.error _) => .ok none
  | some (.ok data) =>
    match TaskState.from_dict data with
    | .ok st => .ok (some st)
    | .error .keyError => .ok none
    | .error .valueError => .ok none
    | .error .typeError => .error .typeError

/-! ## Claim C10 — frame effect of `add_code_chunk` -/

/-- C10: appending a revision via `add_code_chunk` mutates only
`code_history` (exactly one entry appended), `current_code` and
`updated_at`; every other `TaskState` field is unchanged. -/
theorem add_code_chunk_frame (st : TaskState) (subtask new_code model now : String) :
    let st' := st.add_code_chunk subtask new_code model now
    st'.task_id = st.task_id ∧ st'.original_task = st.original_task ∧
    st'.created_at = st.created_at ∧ st'.task_status = st.task_status ∧
    st'.validation_status = st.validation_status ∧ st'.subtasks = st.subtasks ∧
    st'.current_subtask_index = st.current_subtask_index ∧
    st'.current_subtask = st.current_subtask ∧ st'.metadata = st.metadata ∧
    st'.code_chunks = st.code_chunks ∧ st'.errors_detected = st.errors_detected ∧
    st'.user_feedback_history = st.user_feedback_history ∧
    st'.models_used = st.models_used ∧ st'.rag_searches = st.rag_searches ∧
    st'.total_executions = st.total_executions ∧
    st'.successful_executions = st.successful_executions ∧
    st'.code_history = st.code_history ++
      [{ timestamp := now, subtask := subtask, previous_code := st.current_code,
         new_code := new_code, model_used := model }] ∧
    st'.current_code = new_code ∧ st'.updated_at = now :=
  ⟨rfl, rfl, rfl, rfl, rfl, rfl, rfl, rfl, rfl, rfl, rfl, rfl, rfl, rfl, rfl, rfl,
   rfl, rfl, rfl⟩

/-! ## Claim C2 — terminal status of the final validation pass -/

/-- C2 counterexample: with non-empty accumulated code and a failing
final Validator pass, the terminal task status is TESTING — neither
COMPLETED nor FAILED — contradicting "COMPLETED iff `execution_success`,
FAILED otherwise". -/
theorem develop_game_final_stays_testing :
    (develop_game_final
      { task_id := "t", original_task := "o", created_at := "c", updated_at := "u",
        current_code := "import pygame" } false).task_status = TaskStatus.testing ∧
    (develop_game_final
      { task_id := "t", original_task := "o", created_at := "c", updated_at := "u",
        current_code := "import pygame" } false).task_status ≠ TaskStatus.failed := by
  decide

/-- C2 (amended): after the final pass, the task status is COMPLETED iff
the code was non-empty and the pass succeeded (and then validation is
PASSED); on a failing pass with non-empty code the task status remains
TESTING with validation FAILED; the task status is FAILED exactly when
no code was accumulated. -/
theorem develop_game_final_status (st : TaskState) (b : Bool) :
    ((develop_game_final st b).task_status = TaskStatus.completed ↔
      (st.current_code ≠ "" ∧ b = true)) ∧
    ((develop_game_final st b).task_status = TaskStatus.failed ↔ st.current_code = "") ∧
    (st.current_code ≠ "" → b = false →
      (develop_game_final st b).task_status = TaskStatus.testing ∧
      (develop_game_final st b).validation_status = ValidationStatus.vfailed) := by
  cases b <;> by_cases h : st.current_code = "" <;>
    simp [develop_game_final, h]

/-- Witness for `develop_game_final_status` at a concrete failing state. -/
theorem develop_game_final_status_witness :
    (develop_game_final
      { task_id := "t2", original_task := "o", created_at := "c", updated_at := "u",
        current_code := "x" } false).task_status = TaskStatus.testing ∧
    (develop_game_final
      { task_id := "t2", original_task := "o", created_at := "c", updated_at := "u",
        current_code := "x" } false).validation_status = ValidationStatus.vfailed :=
  (develop_game_final_status
    { task_id := "t2", original_task := "o", created_at := "c", updated_at := "u",
      current_code := "x" } false).2.2 (by decide) rfl

/-! ## Claim C8 — progress percentage -/

/-- C8 counterexample: `progress_percentage` is *not* always in
`[0, 100]`: a `TaskState` with one subtask and index 5 (the dataclass
accepts any index) reports 500. -/
theorem progress_percentage_overflow :
    ({ task_id := "t", original_task := "o", created_at := "c", updated_at := "u",
       subtasks := ["a"], current_subtask_index := 5 } : TaskState).progress_percentage
      = 500 ∧
    100 < ({ task_id := "t", original_task := "o", created_at := "c", updated_at := "u",
             subtasks := ["a"], current_subtask_index := 5 } : TaskState).progress_percentage := by
  norm_num [TaskState.progress_percentage]

/-- C8 (amended): `progress_percentage` equals
`current_subtask_index / len(subtasks) * 100` (0 on an empty plan); it
lies in `[0, 100]` whenever `current_subtask_index ≤ len(subtasks)` (an
inequality every mutator in the repository maintains); and
`move_to_next_subtask` never decreases it. -/
theorem progress_percentage_spec (st : TaskState) :
    (st.progress_percentage = if st.subtasks = [] then 0
      else (st.current_subtask_index : ℚ) / (st.subtasks.length : ℚ) * 100) ∧
    (st.current_subtask_index ≤ st.subtasks.length →
      0 ≤ st.progress_percentage ∧ st.progress_percentage ≤ 100) ∧
    st.progress_percentage ≤ st.move_to_next_subtask.progress_percentage := by
  refine ⟨rfl, ?_, ?_⟩
  · intro hle
    by_cases h : st.subtasks = []
    · simp [TaskState.progress_percentage, h]
    · have hn : 0 < (st.subtasks.length : ℚ) := by
        have : st.subtasks.length ≠ 0 := fun hz => h (List.length_eq_zero.mp hz)
        exact_mod_cast Nat.pos_of_ne_zero this
      have hi : (st.current_subtask_index : ℚ) ≤ (st.subtasks.length : ℚ) := by
        exact_mod_cast hle
      constructor
      · simp only [TaskState.progress_percentage, if_neg h]
        positivity
      · simp only [TaskState.progress_percentage, if_neg h]
        have hdiv : (st.current_subtask_index : ℚ) / (st.subtasks.length : ℚ) ≤ 1 :=
          (div_le_one hn).mpr hi
        calc (st.current_subtask_index : ℚ) / (st.subtasks.length : ℚ) * 100
            ≤ 1 * 100 := by
              exact mul_le_mul_of_nonneg_right hdiv (by norm_num)
          _ = 100 := by norm_num
  · unfold TaskState.move_to_next_subtask
    split
    · next hlt =>
      have h : st.subtasks ≠ [] := by
        intro hz; rw [hz] at hlt; simp at hlt
      have hn : 0 < (st.subtasks.length : ℚ) := by
        have : st.subtasks.length ≠ 0 := fun hz => h (List.length_eq_zero.mp hz)
        exact_mod_cast Nat.pos_of_ne_zero this
      simp only [TaskState.progress_percentage, if_neg h]
      rw [div_mul_eq_mul_div, div_mul_eq_mul_div, div_le_div_iff₀ hn hn]
      push_cast
      nlinarith [hn]
    · rfl

/-- Witness for `progress_percentage_spec` at a concrete in-range
state. -/
theorem progress_percentage_spec_witness :
    0 ≤ ({ task_id := "t3", original_task := "o", created_at := "c", updated_at := "u",
           subtasks := ["a", "b"], current_subtask_index := 1 } : TaskState).progress_percentage ∧
    ({ task_id := "t3", original_task := "o", created_at := "c", updated_at := "u",
       subtasks := ["a", "b"], current_subtask_index := 1 } : TaskState).progress_percentage
      ≤ 100 :=
  (progress_percentage_spec _).2.1 (by norm_num)

/-! ## Claim C1 — the code-history chaining invariant -/

/-- C1 counterexample: the orchestrator's sprite-injection step
(`_add_sprites_to_game`) overwrites `current_code` without appending a
history entry, so on a state satisfying the chaining invariant it breaks
`current_code == code_history[-1].new_code`. -/
theorem sprite_injection_breaks_chained :
    chained
      [{ timestamp := "ts", subtask := "s", previous_code := "",
         new_code := "pygame.init()", model_used := "m" }] "pygame.init()" ∧
    ¬ chained
      (add_sprites_to_game
        { task_id := "t", original_task := "o", created_at := "c", updated_at := "u",
          current_code := "pygame.init()",
          code_history := [{ timestamp := "ts", subtask := "s", previous_code := "",
                             new_code := "pygame.init()", model_used := "m" }] }
        [{ type := "character", description := "d", path := "p.png",
           filename := "p.png" }]).code_history
      (add_sprites_to_game
        { task_id := "t", original_task := "o", created_at := "c", updated_at := "u",
          current_code := "pygame.init()",
          code_history := [{ timestamp := "ts", subtask := "s", previous_code := "",
                             new_code := "pygame.init()", model_used := "m" }] }
        [{ type := "character", description := "d", path := "p.png",
           filename := "p.png" }]).current_code := by
  decide

/-- C1 (amended): every `add_code_chunk` call preserves the chaining
invariant (each appended entry's `previous_code` is the `current_code`
in force just before the append, and `current_code` afterwards is that
entry's `new_code`); the sprite-injection step, by contrast, updates
`current_code` without a history entry and so need not preserve it. -/
theorem add_code_chunk_preserves_chained (st : TaskState)
    (subtask new_code model now : String)
    (h : chained st.code_history st.current_code) :
    chained (st.add_code_chunk subtask new_code model now).code_history
            (st.add_code_chunk subtask new_code model now).current_code := by
  obtain ⟨hc, hl⟩ := h
  constructor
  · rw [TaskState.add_code_chunk, List.chain'_append]
    refine ⟨hc, List.chain'_singleton _, ?_⟩
    intro x hx y hy
    simp only [List.head?_cons, Option.mem_def, Option.some.injEq] at hy
    subst hy
    show x.new_code = st.current_code
    rw [hl, Option.mem_def.mp hx]
    rfl
  · simp only [TaskState.add_code_chunk]
    rw [List.getLast?_concat]
    rfl

/-- Witness for `add_code_chunk_preserves_chained` starting from a fresh
(empty-history) state. -/
theorem add_code_chunk_preserves_chained_witness :
    chained
      (({ task_id := "t4", original_task := "o", created_at := "c",
          updated_at := "u" } : TaskState).add_code_chunk "s" "new" "m" "now").code_history
      (({ task_id := "t4", original_task := "o", created_at := "c",
          updated_at := "u" } : TaskState).add_code_chunk "s" "new" "m" "now").current_code :=
  add_code_chunk_preserves_chained
    { task_id := "t4", original_task := "o", created_at := "c", updated_at := "u" }
    "s" "new" "m" "now" (by decide)

/-! ## Claim C4 — planner bounds and fallback -/

/-- C4 counterexample: a parse that yields a single subtask is returned
as is, so `decompose_task` can return fewer than 3 entries. -/
theorem decompose_task_single_entry :
    decompose_task "t".data (.ok "1. Initialize the PyGame window now".data) =
      ["Initialize the PyGame window now".data] ∧
    (decompose_task "t".data (.ok "1. Initialize the PyGame window now".data)).length
      = 1 := by
  decide

/-- C4 (amended): `decompose_task` always returns a non-empty plan of at
most 7 entries and never propagates an exception; when the inference
call raises, or the parse yields nothing, it returns the fallback plan,
which always has 6 entries (so the 3–7 window is guaranteed exactly in
the fallback cases, while a sparse but non-empty parse may yield fewer
than 3). -/
theorem decompose_task_spec (task : List Char) (outcome : Except String (List Char)) :
    decompose_task task outcome ≠ [] ∧
    (decompose_task task outcome).length ≤ 7 ∧
    (∀ e, outcome = .error e → decompose_task task outcome = fallback_subtasks task) ∧
    (∀ resp, outcome = .ok resp → parse_subtasks resp = [] →
      decompose_task task outcome = fallback_subtasks task) ∧
    (fallback_subtasks task).length = 6 := by
  have hfb : (fallback_subtasks task).length = 6 := by
    unfold fallback_subtasks
    split
    · rfl
    · split <;> rfl
  have hfb0 : fallback_subtasks task ≠ [] := by
    intro h; rw [h] at hfb; simp at hfb
  have hparse : ∀ r : List Char, (parse_subtasks r).length ≤ 7 := by
    intro r
    unfold parse_subtasks
    simp only [List.length_take]
    exact min_le_left _ _
  refine ⟨?_, ?_, ?_, ?_, hfb⟩
  · cases outcome with
    | error e => simpa [decompose_task] using hfb0
    | ok resp =>
      by_cases hp : (parse_subtasks resp).isEmpty
      · simpa [decompose_task, hp] using hfb0
      · simp only [decompose_task, hp, Bool.false_eq_true, if_false]
        exact fun hnil => hp (List.isEmpty_iff.mpr hnil)
  · cases outcome with
    | error e => simp [decompose_task, hfb]
    | ok resp =>
      by_cases hp : (parse_subtasks resp).isEmpty
      · simp [decompose_task, hp, hfb]
      · simpa [decompose_task, hp] using hparse resp
  · intro e he; subst he; rfl
  · intro resp he hp; subst he
    simp [decompose_task, hp]

/-- Witness for `decompose_task_spec` with the inference call forced to
fail. -/
theorem decompose_task_spec_witness :
    decompose_task "t".data (.error "network down") ≠ [] ∧
    decompose_task "t".data (.error "network down") = fallback_subtasks "t".data :=
  ⟨(decompose_task_spec "t".data (.error "network down")).1,
   (decompose_task_spec "t".data (.error "network down")).2.2.1 "network down" rfl⟩

/-! ## Claim C5 — coder output -/

/-- C5 counterexample: `generate` does *not* always return non-empty
text: a response consisting of a single preamble line is filtered to the
empty string, which is returned as is. -/
theorem generate_empty_result :
    generate [] "add scoring".data (.ok "Here is the code".data) = [] := by
  decide

/-- C5 (amended): when the inference call raises, `generate` returns the
deterministic fallback skeleton annotated with the truncated failure
reason, and that text is non-empty; on a successful call the cleaned
response is returned as is and may be empty. -/
theorem generate_error_fallback (current_code modification e : List Char) :
    generate current_code modification (.error e) =
      coder_fallback modification (e.take 100) ∧
    generate current_code modification (.error e) ≠ [] := by
  refine ⟨rfl, ?_⟩
  show coder_fallback modification (e.take 100) ≠ []
  unfold coder_fallback
  intro h
  simp only [List.append_eq_nil] at h
  exact absurd h.1.1.1.1 (by decide)

/-! ## Claim C6 — validator static analysis and success path -/

/-- C6 counterexample: a source whose sandboxed run exits 0 with empty
stderr still gets a non-empty `errors_detected` (the static checklist
issues are always included), contradicting "`errors_detected` is
empty". -/
theorem analyze_code_static_errors_nonempty :
    (analyze_code "print(1)".data (execResultOf 0 "1\n" "") (fun _ => "") "skip"
      []).execution_success = true ∧
    (analyze_code "print(1)".data (execResultOf 0 "1\n" "") (fun _ => "") "skip"
      []).errors_detected ≠ [] := by
  decide

/-- C6 (amended): a source missing `pygame.init()` always yields the
critical `missing_init` issue in the static analysis; and when the
sandboxed run exits 0 (empty stderr), `analyze_code` reports
`execution_success = true` with `errors_detected` equal to exactly the
static-analysis issues (empty only when the checklist is clean). -/
theorem analyze_code_spec :
    (∀ code : List Char, containsSub code "pygame.init()".data = false →
      ({ type := "missing_init", description := "Missing pygame.init()",
         severity := "critical", rag_context := none } : Issue) ∈ static_analysis code) ∧
    (∀ (code : List Char) (stdout : String) (ragCtx : String → String)
       (feedback : String) (fixResult : List Char),
      (analyze_code code (execResultOf 0 stdout "") ragCtx feedback
        fixResult).execution_success = true ∧
      (analyze_code code (execResultOf 0 stdout "") ragCtx feedback
        fixResult).errors_detected = static_analysis code) := by
  constructor
  · intro code h
    unfold static_analysis
    rw [h]
    simp [List.mem_append]
  · intro code stdout ragCtx feedback fixResult
    constructor
    · simp [analyze_code, execResultOf]
    · simp [analyze_code, execResultOf]

/-- Witness for `analyze_code_spec` on a source without the
initialization call. -/
theorem analyze_code_spec_witness :
    ({ type := "missing_init", description := "Missing pygame.init()",
       severity := "critical", rag_context := none } : Issue) ∈
      static_analysis "x = 1".data :=
  analyze_code_spec.1 "x = 1".data (by decide)

/-! ## Claim C9 — load_state error behaviour -/

/-- C9 counterexample: a stored record with valid enum entries but a
missing required field (`task_id`) makes the dataclass constructor raise
`TypeError`, which `load_state` does not catch — it does not return
`None`. -/
theorem load_state_typeerror :
    load_state [("t", .ok [("task_status", .vStr "pending"),
                           ("validation_status", .vStr "not_started")])] "t" =
      .error .typeError := by
  rfl

/-- C9 (amended): `load_state` returns `None` without raising when the
record is absent, when its content is not valid JSON, when the
`task_status` key is missing, and when the stored status value is
outside the enum; but a record missing other required fields raises
`TypeError`. -/
theorem load_state_caught_cases (store : StateStore) (tid : String) :
    (dictGet store tid = none → load_state store tid = .ok none) ∧
    (dictGet store tid = some (.error ()) → load_state store tid = .ok none) ∧
    (∀ data, dictGet store tid = some (.ok data) →
      dictGet data "task_status" = none → load_state store tid = .ok none) ∧
    (∀ data s, dictGet store tid = some (.ok data) →
      dictGet data "task_status" = some (.vStr s) → TaskStatus.ofValue s = none →
      load_state store tid = .ok none) := by
  refine ⟨?_, ?_, ?_, ?_⟩
  · intro h; simp [load_state, h]
  · intro h; simp [load_state, h]
  · intro data h hk
    have hfd : TaskState.from_dict data = .error .keyError := by
      unfold TaskState.from_dict
      rw [hk]
      rfl
    simp [load_state, h, hfd]
  · intro data s h hk ho
    have hfd : TaskState.from_dict data = .error .valueError := by
      unfold TaskState.from_dict
      rw [hk]
      show Except.bind (parseTaskStatus (PyVal.vStr s)) _ = Except.error PyErr.valueError
      simp [parseTaskStatus, ho, Except.bind]
    simp [load_state, h, hfd]

/-- Witness for `load_state_caught_cases` across its four caught
situations. -/
theorem load_state_caught_cases_witness :
    load_state [] "t" = .ok none ∧
    load_state [("t", .error ())] "t" = .ok none ∧
    load_state [("t", .ok [])] "t" = .ok none ∧
    load_state [("t", .ok [("task_status", .vStr "bogus")])] "t" = .ok none :=
  ⟨(load_state_caught_cases [] "t").1 rfl,
   (load_state_caught_cases [("t", .error ())] "t").2.1 rfl,
   (load_state_caught_cases [("t", .ok [])] "t").2.2.1 [] rfl rfl,
   (load_state_caught_cases [("t", .ok [("task_status", .vStr "bogus")])] "t").2.2.2
     [("task_status", .vStr "bogus")] "bogus" rfl rfl rfl⟩

/-! ## Claim C7 — lossless persistence round trip -/

theorem dictGet_pySetItem {A : Type} (store : List (String × A)) (k : String) (v : A) :
    dictGet (pySetItem store k v) k = some v := by
  induction store with
  | nil => simp [pySetItem, dictGet]
  | cons p rest ih =>
    obtain ⟨k0, v0⟩ := p
    by_cases h : k0 = k
    · simp [pySetItem, h, dictGet]
    · simp [pySetItem, h, dictGet, ih]

/-- Binding a successful `Except` computation just applies the
continuation. -/
theorem except_bind_ok {ε α β : Type} (a : α) (f : α → Except ε β) :
    (Except.ok a : Except ε α) >>= f = f a := rfl

/-- Mapping a faithful serializer over a list and parsing it back
element by element recovers the list. -/
theorem mapM_map_ok {α β : Type} (f : β → Except PyErr α) (g : α → β)
    (hfg : ∀ a, f (g a) = .ok a) : ∀ l : List α, (l.map g).mapM f = .ok l := by
  intro l
  induction l with
  | nil => rfl
  | cons a t ih =>
    rw [List.map_cons, List.mapM_cons, hfg a, ih]
    rfl

theorem strList_roundtrip (l : List String) :
    (l.map PyVal.vStr).mapM parsePyStr = .ok l :=
  mapM_map_ok parsePyStr PyVal.vStr (fun _ => rfl) l

/-- `strList_roundtrip` stated on the tail-recursive worker form that
appears in the compiled equations. -/
theorem strList_roundtrip_loop (l : List String) :
    List.mapM.loop parsePyStr (l.map PyVal.vStr) [] = .ok l :=
  strList_roundtrip l

theorem optStr_roundtrip (o : Option String) : parsePyOptStr (optStrVal o) = .ok o := by
  cases o <;> rfl

theorem optStrList_roundtrip (o : Option (List String)) :
    parsePyOptStrList (optStrListVal o) = .ok o := by
  cases o with
  | none => rfl
  | some l =>
    show ((l.map PyVal.vStr).mapM parsePyStr).map some = _
    rw [strList_roundtrip]
    rfl

theorem chunk_roundtrip (c : CodeChunk) : parseCodeChunk c.toRaw = .ok c := by
  obtain ⟨s, co, t, m, rc, e⟩ := c
  simp only [CodeChunk.toRaw, parseCodeChunk, dictGet]
  simp [except_bind_ok, optStrList_roundtrip, strList_roundtrip_loop,
        parsePyStr, parsePyStrList]

theorem chunkList_roundtrip (l : List CodeChunk) :
    (l.map CodeChunk.toRaw).mapM parseCodeChunk = .ok l :=
  mapM_map_ok parseCodeChunk CodeChunk.toRaw chunk_roundtrip l

/-- `chunkList_roundtrip` on the worker form. -/
theorem chunkList_roundtrip_loop (l : List CodeChunk) :
    List.mapM.loop parseCodeChunk (l.map CodeChunk.toRaw) [] = .ok l :=
  chunkList_roundtrip l

theorem errorInfo_roundtrip (e : ErrorInfo) : parseErrorInfo e.toRaw = .ok e := by
  obtain ⟨t, d, c, ts, uf, sf⟩ := e
  simp only [ErrorInfo.toRaw, parseErrorInfo, dictGet]
  simp [except_bind_ok, optStr_roundtrip, parsePyStr]

theorem errorList_roundtrip (l : List ErrorInfo) :
    (l.map ErrorInfo.toRaw).mapM parseErrorInfo = .ok l :=
  mapM_map_ok parseErrorInfo ErrorInfo.toRaw errorInfo_roundtrip l

/-- `errorList_roundtrip` on the worker form. -/
theorem errorList_roundtrip_loop (l : List ErrorInfo) :
    List.mapM.loop parseErrorInfo (l.map ErrorInfo.toRaw) [] = .ok l :=
  errorList_roundtrip l

theorem history_roundtrip (h : HistoryEntry) : parseHistoryEntry h.toRaw = .ok h := by
  obtain ⟨t, s, p, n, m⟩ := h
  rfl

theorem historyList_roundtrip (l : List HistoryEntry) :
    (l.map HistoryEntry.toRaw).mapM parseHistoryEntry = .ok l :=
  mapM_map_ok parseHistoryEntry HistoryEntry.toRaw history_roundtrip l

/-- `historyList_roundtrip` on the worker form. -/
theorem historyList_roundtrip_loop (l : List HistoryEntry) :
    List.mapM.loop parseHistoryEntry (l.map HistoryEntry.toRaw) [] = .ok l :=
  historyList_roundtrip l

theorem feedback_roundtrip (f : FeedbackEntry) : parseFeedbackEntry f.toRaw = .ok f := by
  obtain ⟨t, q, a⟩ := f
  rfl

theorem feedbackList_roundtrip (l : List FeedbackEntry) :
    (l.map FeedbackEntry.toRaw).mapM parseFeedbackEntry = .ok l :=
  mapM_map_ok parseFeedbackEntry FeedbackEntry.toRaw feedback_roundtrip l

/-- `feedbackList_roundtrip` on the worker form. -/
theorem feedbackList_roundtrip_loop (l : List FeedbackEntry) :
    List.mapM.loop parseFeedbackEntry (l.map FeedbackEntry.toRaw) [] = .ok l :=
  feedbackList_roundtrip l

theorem taskStatus_roundtrip (t : TaskStatus) : parseTaskStatus (.vStr t.value) = .ok t := by
  cases t <;> rfl

theorem validationStatus_roundtrip (v : ValidationStatus) :
    parseValidationStatus (.vStr v.value) = .ok v := by
  cases v <;> rfl

theorem parsePyNat_natCast (n : Nat) : parsePyNat (.vInt (n : Int)) = .ok n := by
  simp [parsePyNat]

set_option maxRecDepth 4000 in
theorem from_dict_to_dict (st : TaskState) : TaskState.from_dict st.to_dict = .ok st := by
  obtain ⟨tid, ot, ca, ua, ts, vs, sub, idx, cur, md, cc, code, ch, ed, ufh, mu, rs,
          te, se⟩ := st
  simp only [TaskState.to_dict, TaskState.from_dict, dictGet]
  simp [taskStateFields, except_bind_ok, taskStatus_roundtrip,
        validationStatus_roundtrip, chunkList_roundtrip_loop, errorList_roundtrip_loop,
        historyList_roundtrip_loop, feedbackList_roundtrip_loop, strList_roundtrip_loop,
        optStr_roundtrip, parsePyNat_natCast, parsePyStr, parsePyStrList, parsePyDict]

/-- C7: persisting a `TaskState` under its `task_id` and reloading that
`task_id` yields exactly the saved state — all fields, including the
enum-valued statuses and the nested history and error arrays, survive
the round trip. -/
theorem save_load_roundtrip (store : StateStore) (st : TaskState) :
    load_state (save_state store st) st.task_id = .ok (some st) := by
  unfold load_state save_state
  rw [dictGet_pySetItem]
  simp [from_dict_to_dict]

/-! ## Claim C3 — sanitization

Structural lemmas about line splitting, joining, character blanking and
declaration deduplication, leading to the canonical form of
`sanitize_code`'s output and its idempotence. -/

theorem splitNlAux_append (a b : List Char) (ha : '\n' ∉ a) :
    splitNlAux (a ++ b) = (a ++ (splitNlAux b).1, (splitNlAux b).2) := by
  induction a with
  | nil => simp
  | cons c t ih =>
    have hc : ¬(c = '\n') := fun hcn => ha (hcn ▸ List.mem_cons_self c t)
    have ht : '\n' ∉ t := fun hm => ha (List.mem_cons_of_mem c hm)
    simp [splitNlAux, hc, ih ht]

theorem splitNlAux_nl_not_mem (s : List Char) :
    '\n' ∉ (splitNlAux s).1 ∧ ∀ l ∈ (splitNlAux s).2, '\n' ∉ l := by
  induction s with
  | nil => simp [splitNlAux]
  | cons c t ih =>
    by_cases hc : c = '\n'
    · simp only [splitNlAux, hc, if_pos rfl]
      exact ⟨by simp, by simp [List.forall_mem_cons]; exact ⟨ih.1, ih.2⟩⟩
    · simp only [splitNlAux, if_neg hc]
      refine ⟨?_, ih.2⟩
      intro hm
      rcases List.mem_cons.mp hm with hm | hm
      · exact hc hm.symm
      · exact ih.1 hm

theorem splitNl_nl_not_mem (s : List Char) : ∀ l ∈ splitNl s, '\n' ∉ l := by
  intro l hl
  rcases List.mem_cons.mp hl with hl | hl
  · exact hl ▸ (splitNlAux_nl_not_mem s).1
  · exact (splitNlAux_nl_not_mem s).2 l hl

theorem splitNlAux_chars (s : List Char) :
    (∀ c ∈ (splitNlAux s).1, c ∈ s) ∧ (∀ l ∈ (splitNlAux s).2, ∀ c ∈ l, c ∈ s) := by
  induction s with
  | nil => simp [splitNlAux]
  | cons c t ih =>
    by_cases hc : c = '\n'
    · simp only [splitNlAux, hc, if_pos rfl]
      refine ⟨by simp, ?_⟩
      intro l hl d hd
      rcases List.mem_cons.mp hl with hl | hl
      · exact List.mem_cons_of_mem _ (ih.1 d (hl ▸ hd))
      · exact List.mem_cons_of_mem _ (ih.2 l hl d hd)
    · simp only [splitNlAux, if_neg hc]
      refine ⟨?_, fun l hl d hd => List.mem_cons_of_mem _ (ih.2 l hl d hd)⟩
      intro d hd
      rcases List.mem_cons.mp hd with hd | hd
      · exact hd ▸ List.mem_cons_self _ _
      · exact List.mem_cons_of_mem _ (ih.1 d hd)

theorem splitNl_chars (s : List Char) : ∀ l ∈ splitNl s, ∀ c ∈ l, c ∈ s := by
  intro l hl
  rcases List.mem_cons.mp hl with hl | hl
  · exact fun c hc => (splitNlAux_chars s).1 c (hl ▸ hc)
  · exact (splitNlAux_chars s).2 l hl

theorem splitNlAux_no_nl (l : List Char) (h : '\n' ∉ l) : splitNlAux l = (l, []) := by
  induction l with
  | nil => rfl
  | cons c t ih =>
    have hc : ¬(c = '\n') := fun hcn => h (hcn ▸ List.mem_cons_self c t)
    have ht : '\n' ∉ t := fun hm => h (List.mem_cons_of_mem c hm)
    simp [splitNlAux, hc, ih ht]

theorem splitNl_joinNl (L : List (List Char)) (hL : ∀ l ∈ L, '\n' ∉ l) (hne : L ≠ []) :
    splitNl (joinNl L) = L := by
  induction L with
  | nil => cases hne rfl
  | cons l ls ih =>
    cases ls with
    | nil =>
      show splitNl (joinNl [l]) = [l]
      have : splitNlAux l = (l, []) := splitNlAux_no_nl l (hL l (by simp))
      simp [splitNl, joinNl, this]
    | cons l2 ls2 =>
      have h1 : '\n' ∉ l := hL l (by simp)
      have h2 : ∀ m ∈ l2 :: ls2, '\n' ∉ m := fun m hm => hL m (List.mem_cons_of_mem _ hm)
      have hih := ih h2 (by simp)
      show splitNl (l ++ '\n' :: joinNl (l2 :: ls2)) = _
      unfold splitNl at hih ⊢
      rw [splitNlAux_append _ _ h1]
      have hstep : splitNlAux ('\n' :: joinNl (l2 :: ls2)) =
          ([], (splitNlAux (joinNl (l2 :: ls2))).1 :: (splitNlAux (joinNl (l2 :: ls2))).2) := by
        simp [splitNlAux]
      rw [hstep]
      simp [List.cons.injEq] at hih
      simp [hih.1, hih.2]

theorem replaceDisallowed_all (s : List Char) :
    ∀ c ∈ replaceDisallowed s, allowedChar c = true := by
  intro c hc
  rcases List.mem_map.mp hc with ⟨a, _, rfl⟩
  by_cases h : allowedChar a = true
  · simp [h]
  · rw [if_neg h]
    decide

theorem replaceDisallowed_id (s : List Char) (h : ∀ c ∈ s, allowedChar c = true) :
    replaceDisallowed s = s := by
  induction s with
  | nil => rfl
  | cons a t ih =>
    simp only [replaceDisallowed, List.map_cons, h a (List.mem_cons_self a t), if_pos]
    exact congrArg (a :: ·) (ih (fun c hc => h c (List.mem_cons_of_mem a hc)))

theorem replaceDisallowed_append (a b : List Char) :
    replaceDisallowed (a ++ b) = replaceDisallowed a ++ replaceDisallowed b :=
  List.map_append _ a b

theorem encodingDecl_facts :
    encodingDecl ≠ [] ∧ '\n' ∉ encodingDecl ∧
    (∀ c ∈ encodingDecl, allowedChar c = true) := by decide

theorem containsSub_of_isPrefixOf (s pre : List Char) (h : pre.isPrefixOf s = true) :
    containsSub s pre = true := by
  cases s with
  | nil =>
    cases pre with
    | nil => rfl
    | cons a t => simp [List.isPrefixOf] at h
  | cons c rest => simp [containsSub, h]

theorem isPrefixOf_append_self (a b : List Char) : a.isPrefixOf (a ++ b) = true := by
  rw [List.isPrefixOf_iff_prefix]
  exact List.prefix_append a b

theorem dedupDecl_of_no_decl (ls : List (List Char)) (b : Bool)
    (h : ∀ l ∈ ls, containsSub l encodingDecl = false) : dedupDecl ls b = ls := by
  induction ls generalizing b with
  | nil => rfl
  | cons l t ih =>
    have hl : containsSub l encodingDecl = false := h l (List.mem_cons_self l t)
    simp [dedupDecl, hl, ih b (fun m hm => h m (List.mem_cons_of_mem l hm))]

theorem dedupDecl_true_no_decl (ls : List (List Char)) :
    ∀ l ∈ dedupDecl ls true, containsSub l encodingDecl = false := by
  induction ls with
  | nil => simp [dedupDecl]
  | cons l t ih =>
    by_cases hc : containsSub l encodingDecl = true
    · simpa [dedupDecl, hc] using ih
    · have hf : containsSub l encodingDecl = false := Bool.eq_false_iff.mpr hc
      simp only [dedupDecl, hf, Bool.false_eq_true, if_false]
      intro m hm
      rcases List.mem_cons.mp hm with hm | hm
      · exact hm ▸ hf
      · exact ih m hm

theorem dedupDecl_subset (ls : List (List Char)) (b : Bool) :
    ∀ l ∈ dedupDecl ls b, l ∈ ls := by
  induction ls generalizing b with
  | nil => simp [dedupDecl]
  | cons l t ih =>
    intro m hm
    by_cases hc : containsSub l encodingDecl = true
    · cases b with
      | true =>
        simp only [dedupDecl, hc, if_pos] at hm
        exact List.mem_cons_of_mem _ (ih true m hm)
      | false =>
        simp only [dedupDecl, hc, if_pos] at hm
        rcases List.mem_cons.mp hm with hm | hm
        · exact hm ▸ List.mem_cons_self _ _
        · exact List.mem_cons_of_mem _ (ih true m hm)
    · have hf : containsSub l encodingDecl = false := Bool.eq_false_iff.mpr hc
      simp only [dedupDecl, hf, Bool.false_eq_true, if_false] at hm
      rcases List.mem_cons.mp hm with hm | hm
      · exact hm ▸ List.mem_cons_self _ _
      · exact List.mem_cons_of_mem _ (ih b m hm)

theorem dedupDecl_cons_decl (l : List Char) (ls : List (List Char))
    (h : containsSub l encodingDecl = true) :
    dedupDecl (l :: ls) false = l :: dedupDecl ls true := by
  simp [dedupDecl, h]

theorem joinNl_chars (L : List (List Char)) (c : Char) (hc : c ∈ joinNl L) :
    c = '\n' ∨ ∃ l ∈ L, c ∈ l := by
  induction L with
  | nil => simp [joinNl] at hc
  | cons l ls ih =>
    cases ls with
    | nil =>
      right
      exact ⟨l, by simp, hc⟩
    | cons l2 ls2 =>
      rcases List.mem_append.mp hc with hc | hc
      · exact Or.inr ⟨l, by simp, hc⟩
      · rcases List.mem_cons.mp hc with hc | hc
        · exact Or.inl hc
        · rcases ih hc with hc | ⟨m, hm, hcm⟩
          · exact Or.inl hc
          · exact Or.inr ⟨m, List.mem_cons_of_mem _ hm, hcm⟩

theorem joinNl_prefix (l : List Char) (ls : List (List Char)) :
    ∃ t, joinNl (l :: ls) = l ++ t := by
  cases ls with
  | nil => exact ⟨[], (List.append_nil l).symm⟩
  | cons l2 ls2 => exact ⟨'\n' :: joinNl (l2 :: ls2), rfl⟩

/-- Canonical form of `sanitize_code` on non-empty input: the result is
a join of lines whose first line starts with the encoding declaration,
no later line contains the declaration, no line contains a newline, and
every character is in the permitted set. -/
theorem sanitize_code_form (code : List Char) (h : code ≠ []) :
    ∃ l0 rest, sanitize_code code = joinNl (l0 :: rest) ∧
      encodingDecl.isPrefixOf l0 = true ∧
      (∀ l ∈ rest, containsSub l encodingDecl = false) ∧
      (∀ l ∈ l0 :: rest, '\n' ∉ l) ∧
      (∀ l ∈ l0 :: rest, ∀ c ∈ l, allowedChar c = true) := by
  obtain ⟨tail0, hcode1⟩ :
      ∃ t, (if startsWith code encodingDecl then code
            else encodingDecl ++ '\n' :: code) = encodingDecl ++ t := by
    by_cases hs : startsWith code encodingDecl
    · obtain ⟨u, hu⟩ := List.isPrefixOf_iff_prefix.mp hs
      exact ⟨u, by rw [if_pos hs, hu]⟩
    · exact ⟨'\n' :: code, by rw [if_neg hs]⟩
  have hx : sanitize_code code =
      joinNl (reorderDecl
        (dedupDecl (splitNl (replaceDisallowed (encodingDecl ++ tail0))) false)
        ((splitNl (replaceDisallowed (encodingDecl ++ tail0))).any
          (fun l => containsSub l encodingDecl))) := by
    rw [sanitize_code, if_neg h, hcode1]
  have hrepl : replaceDisallowed (encodingDecl ++ tail0) =
      encodingDecl ++ replaceDisallowed tail0 := by
    rw [replaceDisallowed_append,
        replaceDisallowed_id encodingDecl encodingDecl_facts.2.2]
  have hsplit : splitNl (replaceDisallowed (encodingDecl ++ tail0)) =
      (encodingDecl ++ (splitNlAux (replaceDisallowed tail0)).1) ::
        (splitNlAux (replaceDisallowed tail0)).2 := by
    rw [hrepl]
    unfold splitNl
    rw [splitNlAux_append _ _ encodingDecl_facts.2.1]
  set t1 := (splitNlAux (replaceDisallowed tail0)).1 with ht1
  set rest1 := (splitNlAux (replaceDisallowed tail0)).2 with hrest1
  have hl0c : containsSub (encodingDecl ++ t1) encodingDecl = true :=
    containsSub_of_isPrefixOf _ _ (isPrefixOf_append_self _ _)
  have hadded : ((encodingDecl ++ t1) :: rest1).any
      (fun l => containsSub l encodingDecl) = true := by
    simp [hl0c]
  have hdedup : dedupDecl ((encodingDecl ++ t1) :: rest1) false =
      (encodingDecl ++ t1) :: dedupDecl rest1 true :=
    dedupDecl_cons_decl _ _ hl0c
  have hreorder : reorderDecl ((encodingDecl ++ t1) :: dedupDecl rest1 true) true =
      (encodingDecl ++ t1) :: dedupDecl rest1 true := by
    simp [reorderDecl, hl0c]
  refine ⟨encodingDecl ++ t1, dedupDecl rest1 true, ?_, isPrefixOf_append_self _ _,
    dedupDecl_true_no_decl rest1, ?_, ?_⟩
  · rw [hx, hsplit, hadded, hdedup, hreorder]
  · intro l hl
    rcases List.mem_cons.mp hl with hl | hl
    · exact hl ▸ (splitNl_nl_not_mem _ _ (hsplit ▸ List.mem_cons_self _ _))
    · exact splitNl_nl_not_mem (replaceDisallowed (encodingDecl ++ tail0)) l
        (hsplit ▸ List.mem_cons_of_mem _ (dedupDecl_subset rest1 true l hl))
  · have hallchars : ∀ c ∈ replaceDisallowed (encodingDecl ++ tail0),
        allowedChar c = true := replaceDisallowed_all _
    intro l hl c hc
    rcases List.mem_cons.mp hl with hl | hl
    · exact hallchars c (splitNl_chars _ _ (hsplit ▸ List.mem_cons_self _ _) c (hl ▸ hc))
    · exact hallchars c (splitNl_chars _ _
        (hsplit ▸ List.mem_cons_of_mem _ (dedupDecl_subset rest1 true l hl)) c hc)

/-- Joined line lists in canonical form are fixed points of
`sanitize_code`. -/
theorem sanitize_code_fixed (l0 : List Char) (rest : List (List Char))
    (hpre : encodingDecl.isPrefixOf l0 = true)
    (hrest : ∀ l ∈ rest, containsSub l encodingDecl = false)
    (hnl : ∀ l ∈ l0 :: rest, '\n' ∉ l)
    (hall : ∀ l ∈ l0 :: rest, ∀ c ∈ l, allowedChar c = true) :
    sanitize_code (joinNl (l0 :: rest)) = joinNl (l0 :: rest) := by
  have hl0ne : l0 ≠ [] := by
    intro h0
    rw [h0] at hpre
    have : encodingDecl = [] := by
      cases hdec : encodingDecl with
      | nil => rfl
      | cons a t => rw [hdec] at hpre; simp [List.isPrefixOf] at hpre
    exact encodingDecl_facts.1 this
  obtain ⟨t, ht⟩ := joinNl_prefix l0 rest
  have hyne : joinNl (l0 :: rest) ≠ [] := by
    rw [ht]
    intro hcontra
    exact hl0ne (List.append_eq_nil.mp hcontra).1
  have hystarts : startsWith (joinNl (l0 :: rest)) encodingDecl = true := by
    unfold startsWith
    rw [List.isPrefixOf_iff_prefix, ht]
    exact (List.isPrefixOf_iff_prefix.mp hpre).trans (List.prefix_append l0 t)
  have hyall : ∀ c ∈ joinNl (l0 :: rest), allowedChar c = true := by
    intro c hc
    rcases joinNl_chars _ c hc with hc | ⟨l, hl, hcl⟩
    · rw [hc]; decide
    · exact hall l hl c hcl
  have hrepl : replaceDisallowed (joinNl (l0 :: rest)) = joinNl (l0 :: rest) :=
    replaceDisallowed_id _ hyall
  have hsplit : splitNl (joinNl (l0 :: rest)) = l0 :: rest :=
    splitNl_joinNl _ hnl (by simp)
  have hl0c : containsSub l0 encodingDecl = true :=
    containsSub_of_isPrefixOf _ _ hpre
  rw [sanitize_code, if_neg hyne, hystarts]
  simp only [if_pos]
  rw [hrepl, hsplit, dedupDecl_cons_decl _ _ hl0c,
      dedupDecl_of_no_decl rest true hrest]
  have hadded : ((l0 :: rest).any (fun l => containsSub l encodingDecl)) = true := by
    simp [hl0c]
  rw [hadded]
  simp [reorderDecl, hl0c]

/-- C3 counterexample: on the empty input the result of sanitization is
empty, so it contains no encoding declaration at all — "exactly one
encoding declaration" fails. -/
theorem sanitize_code_empty_no_decl :
    sanitize_code [] = [] ∧
    ((splitNl (sanitize_code [])).filter
      (fun l => containsSub l encodingDecl)).length = 0 := by
  decide

/-- C3 (amended): sanitization is idempotent for every input and its
result contains only characters from the permitted set; for every
*non-empty* input the result has exactly one line containing the
encoding declaration, namely the first line, which starts with it. The
empty input is returned unchanged, with no declaration. -/
theorem sanitize_code_spec (x : List Char) :
    sanitize_code (sanitize_code x) = sanitize_code x ∧
    (∀ c ∈ sanitize_code x, allowedChar c = true) ∧
    (x ≠ [] →
      ((splitNl (sanitize_code x)).filter
        (fun l => containsSub l encodingDecl)).length = 1 ∧
      startsWith ((splitNl (sanitize_code x)).headD []) encodingDecl = true) := by
  by_cases hx : x = []
  · subst hx
    refine ⟨rfl, by simp [sanitize_code], fun hcontra => absurd rfl hcontra⟩
  · obtain ⟨l0, rest, heq, hpre, hrest, hnl, hall⟩ := sanitize_code_form x hx
    have hsplit : splitNl (sanitize_code x) = l0 :: rest := by
      rw [heq]
      exact splitNl_joinNl _ hnl (by simp)
    refine ⟨?_, ?_, fun _ => ⟨?_, ?_⟩⟩
    · rw [heq]
      exact sanitize_code_fixed l0 rest hpre hrest hnl hall
    · intro c hc
      rw [heq] at hc
      rcases joinNl_chars _ c hc with hc | ⟨l, hl, hcl⟩
      · rw [hc]; decide
      · exact hall l hl c hcl
    · rw [hsplit, List.filter_cons,
          if_pos (by simpa using containsSub_of_isPrefixOf _ _ hpre),
          List.filter_eq_nil_iff.mpr (fun l hl => by simp [hrest l hl])]
      rfl
    · rw [hsplit]
      exact hpre

/-- Witness for `sanitize_code_spec` on a concrete non-empty input. -/
theorem sanitize_code_spec_witness :
    ((splitNl (sanitize_code "x = 1".data)).filter
      (fun l => containsSub l encodingDecl)).length = 1 ∧
    startsWith ((splitNl (sanitize_code "x = 1".data)).headD [])
      encodingDecl = true :=
  (sanitize_code_spec "x = 1".data).2.2 (by decide)

end Axiom
